import Mathlib

/-!
Verification development for the Eclipse time-series acquisition repository.

The Python sources are shallowly embedded as executable Lean definitions:

* instants are integers (minutes since an arbitrary epoch); a pandas
  `Timestamp` is a wall-clock minute count together with an optional UTC
  offset in minutes (`none` models a tz-naive timestamp; pandas attaches a
  single timezone to a whole `DatetimeIndex`, modelled as one optional
  offset per series);
* numeric values are `Option ℚ`, with `none` playing the role of NaN
  (pandas' missing marker);
* fallible code returns `Except`, with one error constructor per distinct
  Python exception site.
-/

/-- Largest multiple of `k` that is `≤ t` (pandas `floor` on a wall clock). -/
def floorMul (k t : Int) : Int := t - t % k

/-- Smallest multiple of `k` that is `≥ t` (pandas `ceil` on a wall clock). -/
def ceilMul (k t : Int) : Int := t + (k - t % k) % k

/-- A pandas `Timestamp`: wall-clock minutes plus an optional fixed UTC
offset in minutes (`none` = tz-naive). -/
structure PyTimestamp where
  wall : Int
  off : Option Int
deriving DecidableEq

/-- The absolute instant denoted by a timestamp (UTC minutes). -/
def PyTimestamp.instant (t : PyTimestamp) : Int := t.wall - t.off.getD 0

/-- `Timestamp.floor("h")`: pandas floors the local wall clock. -/
def hourFloorT (t : PyTimestamp) : PyTimestamp := ⟨floorMul 60 t.wall, t.off⟩

/-- `Timestamp.ceil("h")`: pandas ceils the local wall clock. -/
def hourCeilT (t : PyTimestamp) : PyTimestamp := ⟨ceilMul 60 t.wall, t.off⟩

/-- A UTC timestamp at instant `x`. -/
def utcTs (x : Int) : PyTimestamp := ⟨x, some 0⟩

/-- A `pd.Series` with a `DatetimeIndex`: index/value pairs plus the index's
optional timezone offset. -/
structure PySeries where
  data : List (Int × Option ℚ)
  tz : Option Int
deriving DecidableEq

/-- The frequency aliases of pandas restricted to the alias shapes this
repository passes to `pd.Timedelta` / `pd.date_range`, mapped to their
length in minutes; every other string fails to parse. -/
def freqTable : List (String × Int) :=
  [("h", 60), ("1h", 60), ("2h", 120), ("min", 1), ("1min", 1), ("5min", 5),
   ("15min", 15), ("30min", 30), ("45min", 45), ("D", 1440), ("1D", 1440)]

/-- `pd.Timedelta(freq)` on the alias set above. -/
def parseFreq (f : String) : Option Int :=
  (freqTable.find? (fun p => p.1 == f)).map (fun p => p.2)

/-- `pd.date_range(a, b, freq=k)`: all points `a + k*i ≤ b`, empty when
`a > b` (pandas raises no error in that case). -/
def gridPts (a b k : Int) : List Int :=
  if a ≤ b ∧ 0 < k then
    (List.range (((b - a).ediv k).toNat + 1)).map (fun (i : Nat) => a + k * (i : Int))
  else []

/-- Value-lookup of a timestamp in a series' data (what `reindex` does per
grid point): `none` both for an absent key and for a present-but-NaN entry. -/
def lookupVal (l : List (Int × Option ℚ)) (t : Int) : Option ℚ :=
  match l.find? (fun p => p.1 == t) with
  | some p => p.2
  | none => none

/-- The offset under which `format_ts` interprets the input index: the
index's own timezone if aware, otherwise the supplied `ts_tz`. -/
def utcOffset (ts : PySeries) (ts_tz : Option Int) : Int :=
  ts.tz.getD (ts_tz.getD 0)

/-- The input series converted to UTC (`tz_localize` + `tz_convert("UTC")`). -/
def utcData (ts : PySeries) (ts_tz : Option Int) : List (Int × Option ℚ) :=
  ts.data.map (fun p => (p.1 - utcOffset ts ts_tz, p.2))

/-- `src/utils.py` line 69: the grid's start edge, floored to the hour when
`include_start` else ceiled, converted to UTC. -/
def cutStartEdge (include_start : Bool) (s : PyTimestamp) : Int :=
  (if include_start then hourFloorT s else hourCeilT s).instant

/-- `src/utils.py` line 72: the unadjusted end edge, ceiled to the hour when
`include_end` else floored, converted to UTC. -/
def cutEndBase (include_end : Bool) (e : PyTimestamp) : Int :=
  (if include_end then hourCeilT e else hourFloorT e).instant

/-- `src/utils.py` lines 72-75: the end edge after the
`include_equal_end` adjustment (one frequency step is trimmed when the last
observed timestamp plus one step equals `end`). -/
def cutEndEdge (include_end include_equal_end : Bool) (e : PyTimestamp)
    (utc : List (Int × Option ℚ)) (k : Int) : Int :=
  if include_equal_end then cutEndBase include_end e
  else
    match utc.getLast? with
    | some lastp =>
        if lastp.1 + k = e.instant then cutEndBase include_end e - k
        else cutEndBase include_end e
    | none => cutEndBase include_end e

/-- One constructor per distinct exception site of `format_ts`
(`src/utils.py`): the two tz `ValueError`s, the uncaught `IndexError` from
`ts.index[-1]` on an empty index, the uncaught `ValueError` from
`pd.Timedelta(freq)` on the adjustment line, the wrapped
"Failed to create target index" error, and the wrapped reindex error
(pandas refuses to reindex an index with duplicate labels). -/
inductive FmtErr where
  | naiveBounds
  | naiveIndex
  | indexErr
  | timedeltaParse
  | gridConstruction
  | reindexErr
deriving DecidableEq

/-- `src/utils.py` lines 77-84: build the target grid and reindex onto it. -/
def reindexGrid (utc : List (Int × Option ℚ)) (a b k : Int) :
    Except FmtErr (List (Int × Option ℚ)) :=
  if (utc.map Prod.fst).Nodup then
    .ok ((gridPts a b k).map (fun t => (t, lookupVal utc t)))
  else .error .reindexErr

/-- `format_ts` (`src/utils.py`): canonicalize a series onto a fixed-frequency
UTC grid between two bounds.  Control flow mirrors the source: tz-aware
check on the bounds, tz resolution of the index, UTC conversion, hour
floor/ceil of the bounds, the `include_equal_end` adjustment (which reads
`ts.index[-1]` and parses `freq` before any grid is built), then
`pd.date_range` and `reindex`. -/
def format_ts (ts : PySeries) (s e : PyTimestamp) (ts_tz : Option Int)
    (freq : String) (include_start include_end include_equal_end : Bool) :
    Except FmtErr (List (Int × Option ℚ)) :=
  if s.off.isNone || e.off.isNone then .error .naiveBounds
  else if ts.tz.isNone && ts_tz.isNone then .error .naiveIndex
  else if include_equal_end then
    match parseFreq freq with
    | none => .error .gridConstruction
    | some k =>
      reindexGrid (utcData ts ts_tz) (cutStartEdge include_start s)
        (cutEndBase include_end e) k
  else
    match (utcData ts ts_tz).getLast? with
    | none => .error .indexErr
    | some lastp =>
      match parseFreq freq with
      | none => .error .timedeltaParse
      | some k =>
        reindexGrid (utcData ts ts_tz) (cutStartEdge include_start s)
          (if lastp.1 + k = e.instant then cutEndBase include_end e - k
           else cutEndBase include_end e) k

deriving instance DecidableEq for Except

/-! ## Token manager and resilient request client (`src/rte_client.py`) -/

/-- The token state owned by an `RTEClient`: `_access_token`,
`_token_expiry` (epoch seconds, here integral), and whether a
`token_cache_file` was configured. -/
structure TokenState where
  accessToken : Option String
  tokenExpiry : Int
  hasCacheFile : Bool
deriving DecidableEq

/-- The JSON body of a token-endpoint response (each field may be absent). -/
structure TokenResponse where
  access_token : Option String
  token_type : Option String
  expires_in : Option Int
deriving DecidableEq

/-- Outcome of the token-endpoint POST: a network-level failure, or an HTTP
status with a body (`none` = unparsable JSON). -/
inductive TokenHTTP where
  | netErr
  | resp (status : Nat) (body : Option TokenResponse)
deriving DecidableEq

/-- One constructor per `raise` site reachable from `get_access_token`: the
four `RTEAuthError`s plus the uncaught `OSError` from the cache write in
`_save_token_to_file` (which has no try/except). -/
inductive AuthErr where
  | netError
  | endpointError (status : Nat)
  | parseError
  | invalidBody
  | saveError
deriving DecidableEq

/-- Which of the model's errors are `RTEAuthError`s (the cache-write
`OSError` is not, so `except RTEAuthError` does not catch it). -/
def isRTEAuthError : AuthErr → Bool
  | .saveError => false
  | _ => true

/-- Python truthiness of an optional string (`None` and `""` are falsy). -/
def pyTruthyS : Option String → Bool
  | none => false
  | some s => !(s == "")

/-- `RTEClient._is_token_valid`: a token is present (`is not None`, so even
`""` counts) and expires more than 10 seconds from now. -/
def isTokenValid (st : TokenState) (now : Int) : Bool :=
  st.accessToken.isSome && decide (now + 10 < st.tokenExpiry)

/-- The declared token lifetime: `int(expires_in) if expires_in else 3600`
(Python truthiness: an absent field and a literal `0` both fall back to
3600 seconds). -/
def tokenLifetime (b : TokenResponse) : Int :=
  match b.expires_in with
  | some n => if n == 0 then 3600 else n
  | none => 3600

/-- `RTEClient.get_access_token` (`src/rte_client.py` lines 75-126).
Inputs beyond the object state: the current time, the `force_refresh`
flag, the token endpoint's behaviour for this call, and whether a cache
write would succeed.  Returns the Python result (token or raised error),
the object's token state after the call (mutations happen before the
cache write, so they survive a raised write error), and the number of
token-endpoint requests performed (0 or 1). -/
def get_access_token (st : TokenState) (now : Int) (force_refresh : Bool)
    (ep : TokenHTTP) (writeOk : Bool) :
    Except AuthErr String × TokenState × Nat :=
  if !force_refresh && isTokenValid st now then
    (.ok (st.accessToken.getD ""), st, 0)
  else
    match ep with
    | .netErr => (.error .netError, st, 1)
    | .resp status body =>
      if status ≠ 200 then (.error (.endpointError status), st, 1)
      else
        match body with
        | none => (.error .parseError, st, 1)
        | some b =>
          if !pyTruthyS b.access_token || !pyTruthyS b.token_type then
            (.error .invalidBody, st, 1)
          else
            let st' : TokenState :=
              { st with accessToken := b.access_token,
                        tokenExpiry := now + tokenLifetime b }
            if st'.hasCacheFile && !writeOk then (.error .saveError, st', 1)
            else (.ok (b.access_token.getD ""), st', 1)

/-- An upstream HTTP response: status code plus a tag distinguishing the
response object's identity. -/
structure HTTPResp where
  status : Nat
  tag : Nat
deriving DecidableEq

/-- Errors raised out of `RTEClient.request`: the `RuntimeError` wrapping a
transport failure, or an error propagated from `get_access_token`. -/
inductive ReqErr where
  | transport
  | auth (e : AuthErr)
deriving DecidableEq

/-- The retry tail of `RTEClient.request` (lines 178-187): after the forced
refresh attempt, re-send if and only if `self._access_token` is truthy,
else fall through and return the original response.  Returns the response
handed back to the caller, the final token state, the number of forced
token refreshes performed, and the total number of upstream HTTP calls. -/
def retryStep (r1 : HTTPResp) (st2 : TokenState) (second : Option HTTPResp) :
    Except ReqErr (HTTPResp × TokenState × Nat × Nat) :=
  if pyTruthyS st2.accessToken then
    match second with
    | none => .error .transport
    | some r2 => .ok (r2, st2, 1, 2)
  else .ok (r1, st2, 1, 1)

/-- `RTEClient.request` (`src/rte_client.py` lines 129-189).  `first` and
`second` give the transport outcome of the initial call and of a retry
(`none` = network failure); `initEp`/`refreshEp` give the token endpoint's
behaviour for the initial `get_access_token()` and for the forced
refresh. -/
def request (st : TokenState) (now : Int) (initEp refreshEp : TokenHTTP)
    (writeOk : Bool) (first second : Option HTTPResp)
    (force_token_refresh_on_401 : Bool) :
    Except ReqErr (HTTPResp × TokenState × Nat × Nat) :=
  match get_access_token st now false initEp writeOk with
  | (.error e, _, _) => .error (.auth e)
  | (.ok _, st1, _) =>
    match first with
    | none => .error .transport
    | some r1 =>
      if (r1.status == 401 || r1.status == 403) && force_token_refresh_on_401
      then
        match get_access_token st1 now true refreshEp writeOk with
        | (.error e, st2, _) =>
          if isRTEAuthError e then retryStep r1 st2 second
          else .error (.auth e)
        | (.ok _, st2, _) => retryStep r1 st2 second
      else .ok (r1, st1, 0, 1)

/-- Sanity: a valid cached token is returned with no network call. -/
theorem sanity_token_cached :
    get_access_token ⟨some "tok", 4000, false⟩ 100 false .netErr true =
    (.ok "tok", ⟨some "tok", 4000, false⟩, 0) := by decide

/-! ## Hourly load with threshold switchover (`src/enstoe_client.py`) -/

/-- `ts.resample("1h").mean()` on a datetime-indexed series: one bucket per
hour from the floor of the first index to the floor of the last, each
holding the mean of the non-missing values falling in it (pandas `mean`
skips NaN; an all-NaN bucket yields NaN). -/
def resampleHourMean (l : List (Int × Option ℚ)) : List (Int × Option ℚ) :=
  match l.head?, l.getLast? with
  | some f, some la =>
    (gridPts (floorMul 60 f.1) (floorMul 60 la.1) 60).map (fun h =>
      let present := l.filterMap (fun p =>
        if floorMul 60 p.1 = h then p.2 else none)
      (h, if present.isEmpty then none
          else some (present.sum / (present.length : ℚ))))
  | _, _ => []

/-- `ts[~ts.index.duplicated(keep="last")]`: keep each row whose timestamp
does not occur again later in the list. -/
def dedupKeepLast : List (Int × Option ℚ) → List (Int × Option ℚ)
  | [] => []
  | x :: xs =>
    if xs.any (fun p => p.1 == x.1) then dedupKeepLast xs
    else x :: dedupKeepLast xs

/-- The `else` branch of `EntsoeHourlyClient.get_hourly_load`
(`src/enstoe_client.py` lines 36-52), as a function of the split point:
fetch and normalize the pre-split segment at 1h, fetch and normalize the
post-split segment at 15min and downsample it to hourly means, concatenate,
drop duplicate timestamps keeping the last, and re-normalize over the full
window.  `ql` is the vendor `query_load` collaborator, returning the raw
series (UTC instants) for a window. -/
def stitchSpanning (ql : Int → Int → List (Int × Option ℚ))
    (threshold s e : PyTimestamp) :
    Except FmtErr (List (Int × Option ℚ)) := do
  let tb ← format_ts ⟨ql s.instant threshold.instant, some 0⟩ s threshold
    none "1h" false false false
  let taRaw ← format_ts ⟨ql threshold.instant e.instant, some 0⟩ threshold e
    none "15min" false false false
  let ta := resampleHourMean taRaw
  format_ts ⟨dedupKeepLast (tb ++ ta), some 0⟩ s e none "1h" false false false

/-- `EntsoeHourlyClient.get_hourly_load` (`src/enstoe_client.py`):
tz-awareness check, then three branches on the calendar threshold at which
the upstream native frequency changes from hourly to 15-minute.  (The final
`rename(columns=...)` does not change the data and is not modelled.) -/
def get_hourly_load (ql : Int → Int → List (Int × Option ℚ))
    (threshold s e : PyTimestamp) :
    Except FmtErr (List (Int × Option ℚ)) :=
  if s.off.isNone || e.off.isNone then .error .naiveBounds
  else if e.instant ≤ threshold.instant then
    format_ts ⟨ql s.instant e.instant, some 0⟩ s e none "1h" false false false
  else if threshold.instant ≤ s.instant then
    (format_ts ⟨ql s.instant e.instant, some 0⟩ s e none "15min"
      false false false).map resampleHourMean
  else
    stitchSpanning ql threshold s e

/-- Modelled from the spec (§4.4 "Spanning `T`"): perform both sub-fetches
independently, each normalized to its native frequency, downsample the
post-threshold segment to hourly, concatenate, drop duplicate timestamps
keeping the later-computed value, then re-normalize once more over the full
requested window.  Written from the spec's words for comparison with the
source's spanning branch. -/
def specSpanningStitch (ql : Int → Int → List (Int × Option ℚ))
    (threshold s e : PyTimestamp) :
    Except FmtErr (List (Int × Option ℚ)) := do
  let pre ← format_ts ⟨ql s.instant threshold.instant, some 0⟩ s threshold
    none "1h" false false false
  let post15 ← format_ts ⟨ql threshold.instant e.instant, some 0⟩ threshold e
    none "15min" false false false
  let post := resampleHourMean post15
  let combined := dedupKeepLast (pre ++ post)
  format_ts ⟨combined, some 0⟩ s e none "1h" false false false

/-- A consistent hourly upstream: `queryLoad` over `[s, e)` returns exactly
the hour-aligned instants of the window, valued by the ground truth `g`
(the convention observed in the repository's VCR test cassettes). -/
def hourlyTruth (g : Int → ℚ) (s e : Int) : List (Int × Option ℚ) :=
  (gridPts s (e - 60) 60).map (fun t => (t, some (g t)))

/-! ## Weighted temperature aggregation (`src/open_meteo_client.py`) -/

/-- Per-city configuration entry. -/
structure CityInfo where
  lat : ℚ
  lon : ℚ
  weight : ℚ
deriving DecidableEq

/-- The attributes `OpenMeteoClient.__init__` assigns: `cities_cfg`,
`timezone`, `base_url` — and nothing named `cities`. -/
structure OpenMeteoClientM where
  cities_cfg : List (String × CityInfo)
  timezone : String
  base_url : String
deriving DecidableEq

/-- Python runtime errors reachable in `get_averaged`. -/
inductive PyRunErr where
  | attributeError (attr : String)
  | indexError
deriving DecidableEq

/-- `pd.merge(df_all, df_city, on="datetime", how="inner")` specialised to
the accumulated frame: keep the rows whose datetime occurs in both, and
append the new city's value. -/
def mergeInner (acc : List (Int × List (Option ℚ)))
    (f : List (Int × Option ℚ)) : List (Int × List (Option ℚ)) :=
  acc.filterMap (fun row =>
    match f.find? (fun p => p.1 == row.1) with
    | some p => some (row.1, row.2 ++ [p.2])
    | none => none)

/-- `OpenMeteoClient.get_averaged` (`src/open_meteo_client.py` lines 67-100).
`fetch` stands for the per-city HTTP fetch of `get_city` (name, lat, lon ↦
hourly rows).  The source fetches every configured city, inner-merges the
frames on datetime (`temp_dfs[0]` raises IndexError when no city is
configured), and then evaluates
`sum(city["weight"] for city in self.cities.values())` — but `__init__`
assigns only `cities_cfg`, `timezone` and `base_url`, so the attribute
lookup `self.cities` raises `AttributeError` before any weighted sum, for
every client built from this class. -/
def get_averaged (c : OpenMeteoClientM)
    (fetch : String → ℚ → ℚ → List (Int × Option ℚ)) :
    Except PyRunErr (List (Int × List (Option ℚ))) :=
  let frames := c.cities_cfg.map (fun ci => fetch ci.1 ci.2.lat ci.2.lon)
  match frames with
  | [] => .error .indexError
  | f0 :: rest =>
    let _merged := rest.foldl mergeInner (f0.map (fun p => (p.1, [p.2])))
    .error (.attributeError "cities")

/-! ## Type-keyed consumption extraction -/

/-- `config.PrevisionType` (`src/config.py` lines 37-43). -/
inductive PrevisionType where
  | REALISED
  | CORRECTED
  | ID
  | D_MINUS_1
  | D_MINUS_2
deriving DecidableEq

/-- The upstream string tag of each variant (the enum's `.value`). -/
def PrevisionType.fromString : String → Option PrevisionType
  | "REALISED" => some .REALISED
  | "CORRECTED" => some .CORRECTED
  | "ID" => some .ID
  | "D-1" => some .D_MINUS_1
  | "D-2" => some .D_MINUS_2
  | _ => none

/-- Effectful map over a list in `Except`, mirroring a Python loop that
builds one output per input and propagates the first raised error. -/
def mapMExc (f : α → Except ε β) : List α → Except ε (List β)
  | [] => .ok []
  | a :: as =>
    match f a with
    | .error er => .error er
    | .ok b => (mapMExc f as).map (fun bs => b :: bs)

/-- Modelled from the spec (§4.6 ConsumptionExtractor): the per-type keyed
extractor `get_short_term_consumptions` that the repository's tests
(`tests/test_rte_client.py`) exercise is not under `src/` (src only has the
flat-frame `get_short_term_consumption`).  Per the spec, each forecast
variant present in the upstream response is normalized independently into
its own series keyed by `PrevisionType`; the requested `types` only shape
the outgoing query, not the extraction, and blocks whose tag is not a known
variant are skipped.  The exact boundary parameters the missing extractor
passes to the normalizer are not recoverable from `src/`; the model
normalizes each block over the caller's window at 15 minutes with both
bounds included. -/
def get_short_term_consumptions (_types : List PrevisionType)
    (resp : List (String × List (Int × Option ℚ))) (s e : PyTimestamp) :
    Except FmtErr (List (PrevisionType × List (Int × Option ℚ))) :=
  mapMExc
    (fun pb =>
      (format_ts ⟨pb.2, some 0⟩ s e none "15min" true true false).map
        (fun ser => (pb.1, ser)))
    (resp.filterMap (fun b =>
      (PrevisionType.fromString b.1).map (fun p => (p, b.2))))

/-! ## General lemmas about the embedded primitives -/

/-- Every frequency alias the parser accepts denotes a positive step. -/
theorem parseFreq_pos {f : String} {k : Int} (h : parseFreq f = some k) :
    0 < k := by
  have hall : ∀ p ∈ freqTable, 0 < p.2 := by decide
  unfold parseFreq at h
  cases hf : freqTable.find? (fun p => p.1 == f) with
  | none => rw [hf] at h; simp at h
  | some p =>
    rw [hf] at h
    simp only [Option.map_some'] at h
    cases h
    exact hall p (List.mem_of_find?_eq_some hf)

/-- Pointwise congruence for `map`. -/
theorem map_congr_mem {α β} {l : List α} {f g : α → β}
    (h : ∀ a ∈ l, f a = g a) : l.map f = l.map g := by
  induction l with
  | nil => rfl
  | cons x xs ih => simp_all

/-- Pointwise congruence for `filterMap`. -/
theorem filterMap_congr_mem {α β} {l : List α} {f g : α → Option β}
    (h : ∀ a ∈ l, f a = g a) : l.filterMap f = l.filterMap g := by
  induction l with
  | nil => rfl
  | cons x xs ih =>
    rw [List.filterMap_cons, List.filterMap_cons, h x (by simp),
      ih (fun a ha => h a (by simp [ha]))]

/-- A grid between aligned bounds is the mapped range of its step count. -/
theorem gridPts_eq_map_range (a k : Int) (n : Nat) (hk : 0 < k) :
    gridPts a (a + k * n) k =
    (List.range (n + 1)).map (fun (i : Nat) => a + k * (i : Int)) := by
  unfold gridPts
  have h1 : a ≤ a + k * n :=
    le_add_of_nonneg_right (mul_nonneg hk.le (Int.natCast_nonneg n))
  rw [if_pos ⟨h1, hk⟩]
  have h2 : a + k * (n : Int) - a = k * n := by ring
  have h3 : (k * (n : Int)).ediv k = (n : Int) := by
    show k * (n : Int) / k = (n : Int)
    exact Int.mul_ediv_cancel_left _ (ne_of_gt hk)
  rw [h2, h3, Int.toNat_natCast]

/-- Consecutive grid points differ by exactly the step. -/
theorem gridPts_chain' (a b k : Int) :
    List.Chain' (fun x y => y = x + k) (gridPts a b k) := by
  unfold gridPts
  split
  · rw [List.chain'_iff_get]
    intro i hi
    simp only [List.get_eq_getElem, List.getElem_map, List.getElem_range]
    push_cast
    ring
  · exact List.chain'_nil

/-- Unfolding lemma for `lookupVal` on a cons cell. -/
theorem lookupVal_cons (x : Int × Option ℚ) (l : List (Int × Option ℚ))
    (t : Int) :
    lookupVal (x :: l) t = if x.1 = t then x.2 else lookupVal l t := by
  by_cases h : x.1 = t
  · rw [if_pos h]
    unfold lookupVal
    rw [List.find?_cons_of_pos _ (by simp [h])]
  · rw [if_neg h]
    unfold lookupVal
    rw [List.find?_cons_of_neg _ (by simp [h])]

/-- Looking up an existing grid key in a range-shaped association list. -/
theorem lookupVal_map_range (a k : Int) (hk : 0 < k) (w : Nat → Option ℚ) :
    ∀ (n j : Nat), j < n →
    lookupVal ((List.range n).map (fun (i : Nat) => (a + k * (i : Int), w i)))
      (a + k * (j : Int)) = w j := by
  intro n
  induction n generalizing a w with
  | zero => intro j hj; omega
  | succ m ih =>
    intro j hj
    have hshape :
        (List.range (m + 1)).map (fun (i : Nat) => (a + k * (i : Int), w i)) =
        (a, w 0) ::
          (List.range m).map
            (fun (i : Nat) => ((a + k) + k * (i : Int), w (i + 1))) := by
      rw [List.range_succ_eq_map, List.map_cons, List.map_map]
      refine congrArg₂ List.cons (by norm_num) ?_
      refine map_congr_mem (fun i _ => ?_)
      simp only [Function.comp_apply, Prod.mk.injEq]
      exact ⟨by push_cast; ring, trivial⟩
    rw [hshape, lookupVal_cons]
    cases j with
    | zero => simp
    | succ j' =>
      have hpos : (0 : Int) < k * ((j' : Int) + 1) := by positivity
      have hne : ¬ (a = a + k * ((j'.succ : Nat) : Int)) := by
        push_cast
        intro hcontra
        linarith
      rw [if_neg hne]
      have hkey : a + k * ((j'.succ : Nat) : Int) = (a + k) + k * (j' : Int) := by
        push_cast
        ring
      rw [hkey]
      exact ih (a + k) (fun i => w (i + 1)) j' (by omega)

/-- Looking up a key absent from an association list yields `none`. -/
theorem lookupVal_not_mem (l : List (Int × Option ℚ)) (t : Int)
    (h : t ∉ l.map Prod.fst) : lookupVal l t = none := by
  unfold lookupVal
  rw [List.find?_eq_none.mpr]
  intro x hx
  simp only [beq_iff_eq]
  intro hx1
  exact h (List.mem_map.mpr ⟨x, hx, hx1⟩)

/-- The keys of a range-shaped association list have no duplicates. -/
theorem nodup_map_range_keys (a k : Int) (hk : 0 < k) (w : Nat → Option ℚ)
    (n : Nat) :
    (((List.range n).map (fun (i : Nat) => (a + k * (i : Int), w i))).map
      Prod.fst).Nodup := by
  rw [List.map_map]
  have hinj : Function.Injective (fun i : Nat => a + k * (i : Int)) := by
    intro i j hij
    simp only at hij
    have h1 : k * (i : Int) = k * (j : Int) := by linarith
    have h2 : (i : Int) = (j : Int) := mul_left_cancel₀ (ne_of_gt hk) h1
    exact_mod_cast h2
  exact List.Nodup.map hinj (List.nodup_range n)

/-- `getLast?` of a mapped nonempty range. -/
theorem getLast?_map_range {β : Type} (f : Nat → β) (n : Nat) :
    ((List.range (n + 1)).map f).getLast? = some (f n) := by
  rw [List.range_succ, List.map_append]
  simp

/-- `head?` of a mapped nonempty range. -/
theorem head?_map_range {β : Type} (f : Nat → β) (n : Nat) :
    ((List.range (n + 1)).map f).head? = some (f 0) := by
  rw [List.range_succ_eq_map]
  simp

/-- Dropping later-duplicated timestamps is the identity on a
duplicate-free series. -/
theorem dedupKeepLast_self (l : List (Int × Option ℚ))
    (h : (l.map Prod.fst).Nodup) : dedupKeepLast l = l := by
  induction l with
  | nil => rfl
  | cons x xs ih =>
    simp only [List.map_cons, List.nodup_cons] at h
    have hany : xs.any (fun p => p.1 == x.1) = false := by
      rw [List.any_eq_false]
      intro p hp
      simp only [beq_iff_eq]
      intro hq
      exact h.1 (List.mem_map.mpr ⟨p, hp, hq⟩)
    simp [dedupKeepLast, hany, ih h.2]

/-- After deduplication of a concatenation, a timestamp present in the
second list resolves to the second list's (later) value. -/
theorem lookupVal_dedup_append (xs ys : List (Int × Option ℚ)) (t : Int)
    (hnd : (ys.map Prod.fst).Nodup) (hmem : t ∈ ys.map Prod.fst) :
    lookupVal (dedupKeepLast (xs ++ ys)) t = lookupVal ys t := by
  induction xs with
  | nil => rw [List.nil_append, dedupKeepLast_self ys hnd]
  | cons x xs ih =>
    rw [List.cons_append]
    by_cases hx : (xs ++ ys).any (fun p => p.1 == x.1) = true
    · simp [dedupKeepLast, hx, ih]
    · have hxt : ¬ (x.1 = t) := by
        intro he
        apply hx
        rw [List.any_eq_true]
        obtain ⟨p, hp, hp1⟩ := List.mem_map.mp hmem
        exact ⟨p, List.mem_append_right xs hp, by simp [hp1, he]⟩
      simp only [dedupKeepLast, hx, if_false, Bool.false_eq_true]
      rw [lookupVal_cons, if_neg hxt]
      exact ih

/-- `filterMap` of an indicator hitting exactly one index of a range. -/
theorem filterMap_range_single {β : Type} (N t : Nat) (x : β) (h : t < N) :
    (List.range N).filterMap (fun i => if i = t then some x else none) =
    [x] := by
  induction N with
  | zero => omega
  | succ m ih =>
    rw [List.range_succ, List.filterMap_append]
    by_cases hm : t < m
    · rw [ih hm]
      have : m ≠ t := by omega
      simp [this]
    · have ht : t = m := by omega
      subst ht
      rw [List.filterMap_eq_nil_iff.mpr (by intro a ha; simp at ha; simp; omega)]
      simp

/-- Everything a successful `reindexGrid` guarantees about its output: the
index is the requested grid, consecutive points differ by the step, the
index is strictly increasing hence duplicate-free, and keys absent from the
source data come out as missing. -/
theorem reindexGrid_ok_props (utc : List (Int × Option ℚ)) (a b k : Int)
    (hk : 0 < k) (out : List (Int × Option ℚ))
    (hout : reindexGrid utc a b k = .ok out) :
    out.map Prod.fst = gridPts a b k ∧
    List.Chain' (fun x y => y = x + k) (out.map Prod.fst) ∧
    List.Pairwise (· < ·) (out.map Prod.fst) ∧
    (out.map Prod.fst).Nodup ∧
    ∀ p ∈ out, p.1 ∉ utc.map Prod.fst → p.2 = none := by
  unfold reindexGrid at hout
  by_cases hnd : (utc.map Prod.fst).Nodup
  · rw [if_pos hnd] at hout
    have hX : out = (gridPts a b k).map (fun t => (t, lookupVal utc t)) := by
      injection hout with h
      exact h.symm
    subst hX
    have hfst : ((gridPts a b k).map
        (fun t => (t, lookupVal utc t))).map Prod.fst = gridPts a b k := by
      rw [List.map_map]
      exact List.map_id _
    have hchain : List.Chain' (fun x y => y = x + k) (gridPts a b k) :=
      gridPts_chain' a b k
    have hlt : List.Chain' (· < ·) (gridPts a b k) := by
      refine hchain.imp ?_
      intro x y hxy
      rw [hxy]
      exact lt_add_of_pos_right _ hk
    have hpw : List.Pairwise (· < ·) (gridPts a b k) :=
      List.chain'_iff_pairwise.mp hlt
    refine ⟨hfst, ?_, ?_, ?_, ?_⟩
    · rw [hfst]; exact hchain
    · rw [hfst]; exact hpw
    · rw [hfst]; exact List.Pairwise.imp (fun h => ne_of_lt h) hpw
    · intro p hp hnm
      obtain ⟨t, _, rfl⟩ := List.mem_map.mp hp
      exact lookupVal_not_mem utc t hnm
  · rw [if_neg hnd] at hout
    exact Except.noConfusion hout

/-! ## Claim C1 -/

/-- C1: whenever `format_ts` returns a series — nonempty input, tz-aware
bounds, parsable frequency — the output's index is exactly the UTC grid
from the computed start edge to the computed (adjusted) end edge with
points one frequency step apart, strictly increasing and duplicate-free,
and every grid point absent from the UTC-converted input carries the
missing marker. -/
theorem c1_output_grid (ts : PySeries) (s e : PyTimestamp)
    (ts_tz : Option Int) (freq : String)
    (include_start include_end include_equal_end : Bool) (k : Int)
    (out : List (Int × Option ℚ))
    (hk : parseFreq freq = some k)
    (_hne : ts.data ≠ [])
    (hs : s.off.isSome) (he : e.off.isSome)
    (hout : format_ts ts s e ts_tz freq include_start include_end
      include_equal_end = .ok out) :
    out.map Prod.fst =
      gridPts (cutStartEdge include_start s)
        (cutEndEdge include_end include_equal_end e (utcData ts ts_tz) k) k ∧
    List.Chain' (fun x y => y = x + k) (out.map Prod.fst) ∧
    List.Pairwise (· < ·) (out.map Prod.fst) ∧
    (out.map Prod.fst).Nodup ∧
    ∀ p ∈ out, p.1 ∉ (utcData ts ts_tz).map Prod.fst → p.2 = none := by
  have hkpos : 0 < k := parseFreq_pos hk
  obtain ⟨sv, hsv⟩ := Option.isSome_iff_exists.mp hs
  obtain ⟨ev, hev⟩ := Option.isSome_iff_exists.mp he
  unfold format_ts at hout
  rw [hsv, hev] at hout
  simp only [Option.isNone_some, Bool.or_self, Bool.false_eq_true,
    if_false] at hout
  by_cases htz : (ts.tz.isNone && ts_tz.isNone) = true
  · rw [if_pos htz] at hout
    exact Except.noConfusion hout
  · rw [if_neg htz] at hout
    cases include_equal_end with
    | true =>
      rw [hk] at hout
      have h := reindexGrid_ok_props _ _ _ _ hkpos _ hout
      simpa [cutEndEdge] using h
    | false =>
      cases hlast : (utcData ts ts_tz).getLast? with
      | none =>
        rw [hlast] at hout
        exact Except.noConfusion hout
      | some lastp =>
        rw [hlast, hk] at hout
        have h := reindexGrid_ok_props _ _ _ _ hkpos _ hout
        simpa [cutEndEdge, hlast] using h

/-- The concrete output series used by the C1 witness. -/
def c1ExOut : List (Int × Option ℚ) := [(0, none), (60, some 1), (120, none)]

/-- The concrete input series used by the C1 witness. -/
def c1ExIn : PySeries := ⟨[(60, some 1)], some 0⟩

/-- C1 witness: a concrete run of `format_ts` for which the theorem's
hypotheses hold, together with the guaranteed conclusion. -/
theorem c1_output_grid_witness :
    format_ts c1ExIn ⟨50, some 0⟩ ⟨130, some 0⟩ none "1h"
      true false false = .ok c1ExOut ∧
    (c1ExOut.map Prod.fst =
      gridPts (cutStartEdge true ⟨50, some 0⟩)
        (cutEndEdge false false ⟨130, some 0⟩ (utcData c1ExIn none) 60) 60 ∧
    List.Chain' (fun x y => y = x + 60) (c1ExOut.map Prod.fst) ∧
    List.Pairwise (· < ·) (c1ExOut.map Prod.fst) ∧
    (c1ExOut.map Prod.fst).Nodup ∧
    ∀ p ∈ c1ExOut,
      p.1 ∉ (utcData c1ExIn none).map Prod.fst → p.2 = none) :=
  ⟨by decide,
   c1_output_grid c1ExIn ⟨50, some 0⟩ ⟨130, some 0⟩ none
     "1h" true false false 60 c1ExOut
     (by decide) (by decide) (by decide) (by decide) (by decide)⟩

/-! ## Claim C2 -/

/-- C2 counterexample: with `freq = "15min"` and an inclusive start at
minute 620, the claim says the grid's start edge is 620 floored to the
requested frequency, i.e. 615; the code floors to the hour, and the
returned grid starts at 600 instead. -/
theorem c2_counterexample :
    format_ts ⟨[(600, some 1)], some 0⟩ ⟨620, some 0⟩ ⟨700, some 0⟩ none
      "15min" true false false =
      .ok [(600, some 1), (615, none), (630, none), (645, none),
        (660, none)] ∧
    (620 : Int) - Int.emod 620 15 = 615 ∧ (600 : Int) ≠ 615 :=
  ⟨by decide, by decide, by decide⟩

/-- C2 amended: the edges are floored/ceiled to the *hour* (hardcoded
`"h"` in the source), not to the requested frequency; the
`include_equal_end = False` adjustment does subtract exactly one frequency
step from the computed end edge when the last (UTC) input timestamp plus
one step equals `end`.  Stated with the floor/ceil arithmetic written out
explicitly over the wall clock and offset. -/
theorem c2_amended (ts : PySeries) (s e : PyTimestamp) (ts_tz : Option Int)
    (freq : String) (include_start include_end : Bool) (k lst : Int)
    (v : Option ℚ) (out : List (Int × Option ℚ))
    (hk : parseFreq freq = some k)
    (hs : s.off.isSome) (he : e.off.isSome)
    (hlast : (utcData ts ts_tz).getLast? = some (lst, v))
    (hout : format_ts ts s e ts_tz freq include_start include_end false =
      .ok out) :
    out.map Prod.fst =
      gridPts
        ((if include_start then s.wall - Int.emod s.wall 60
          else s.wall + Int.emod (60 - Int.emod s.wall 60) 60) - s.off.getD 0)
        (if lst + k = e.wall - e.off.getD 0 then
          ((if include_end then e.wall + Int.emod (60 - Int.emod e.wall 60) 60
            else e.wall - Int.emod e.wall 60) - e.off.getD 0) - k
         else
          ((if include_end then e.wall + Int.emod (60 - Int.emod e.wall 60) 60
            else e.wall - Int.emod e.wall 60) - e.off.getD 0)) k := by
  have hkpos : 0 < k := parseFreq_pos hk
  obtain ⟨sv, hsv⟩ := Option.isSome_iff_exists.mp hs
  obtain ⟨ev, hev⟩ := Option.isSome_iff_exists.mp he
  unfold format_ts at hout
  rw [hsv, hev] at hout
  simp only [Option.isNone_some, Bool.or_self, Bool.false_eq_true,
    if_false] at hout
  by_cases htz : (ts.tz.isNone && ts_tz.isNone) = true
  · rw [if_pos htz] at hout
    exact Except.noConfusion hout
  · rw [if_neg htz] at hout
    rw [hlast, hk] at hout
    have h := (reindexGrid_ok_props _ _ _ _ hkpos _ hout).1
    have hS : cutStartEdge include_start s =
        (if include_start then s.wall - Int.emod s.wall 60
         else s.wall + Int.emod (60 - Int.emod s.wall 60) 60) -
          s.off.getD 0 := by
      cases include_start <;> rfl
    have hE : cutEndBase include_end e =
        (if include_end then e.wall + Int.emod (60 - Int.emod e.wall 60) 60
         else e.wall - Int.emod e.wall 60) - e.off.getD 0 := by
      cases include_end <;> rfl
    have hI : e.instant = e.wall - e.off.getD 0 := rfl
    rw [hS, hE, hI] at h
    exact h

/-- C2 witness: a concrete run discharging the amended theorem's
hypotheses (frequency 15 minutes; no adjustment fires since
600 + 15 ≠ 700). -/
theorem c2_amended_witness :
    format_ts ⟨[(600, some 1)], some 0⟩ ⟨620, some 0⟩ ⟨700, some 0⟩ none
      "15min" true false false =
      .ok [(600, some 1), (615, none), (630, none), (645, none),
        (660, none)] ∧
    ([((600 : Int), some (1 : ℚ)), (615, none), (630, none), (645, none),
        (660, none)].map Prod.fst =
      gridPts
        ((if true then (620 : Int) - Int.emod 620 60
          else (620 : Int) + Int.emod (60 - Int.emod 620 60) 60) -
          (some (0 : Int)).getD 0)
        (if (600 : Int) + 15 = 700 - (some (0 : Int)).getD 0 then
          ((if false then (700 : Int) + Int.emod (60 - Int.emod 700 60) 60
            else (700 : Int) - Int.emod 700 60) - (some (0 : Int)).getD 0) -
            15
         else
          ((if false then (700 : Int) + Int.emod (60 - Int.emod 700 60) 60
            else (700 : Int) - Int.emod 700 60) - (some (0 : Int)).getD 0))
        15) :=
  ⟨by decide,
   c2_amended ⟨[(600, some 1)], some 0⟩ ⟨620, some 0⟩ ⟨700, some 0⟩ none
     "15min" true false 15 600 (some 1)
     [(600, some 1), (615, none), (630, none), (645, none), (660, none)]
     (by decide) (by decide) (by decide) (by decide) (by decide)⟩

/-! ## Claim C3 -/

/-- C3 counterexample: with start (instant 630) strictly after end
(instant 610) and a perfectly valid frequency, `format_ts` does not raise:
`pd.date_range` silently yields the hour-aligned grid (here the single
point 600) and a series is returned. -/
theorem c3_counterexample :
    (610 : Int) < 630 ∧
    format_ts ⟨[(600, some 1)], some 0⟩ ⟨630, some 0⟩ ⟨610, some 0⟩ none
      "1h" true false false = .ok [(600, some 1)] :=
  ⟨by decide, by decide⟩

/-- C3 amended: `format_ts` never returns a series when the frequency
string cannot be parsed (it raises, as a Timedelta-parse or
grid-construction error); but `start > end` does not make it raise — for
valid tz-aware bounds, a nonempty duplicate-free input and a parsable
frequency it returns a series even when the start bound is after the end
bound (the grid is simply short or empty). -/
theorem c3_amended :
    (∀ (ts : PySeries) (s e : PyTimestamp) (ts_tz : Option Int)
      (freq : String) (inc_s inc_e inc_eq : Bool)
      (out : List (Int × Option ℚ)),
      parseFreq freq = none →
      format_ts ts s e ts_tz freq inc_s inc_e inc_eq ≠ .ok out) ∧
    (∀ (ts : PySeries) (s e : PyTimestamp) (ts_tz : Option Int)
      (freq : String) (inc_s inc_e : Bool) (k : Int),
      parseFreq freq = some k → s.off.isSome → e.off.isSome →
      (ts.tz.isSome ∨ ts_tz.isSome) → ts.data ≠ [] →
      ((utcData ts ts_tz).map Prod.fst).Nodup →
      e.instant < s.instant →
      ∃ out, format_ts ts s e ts_tz freq inc_s inc_e false = .ok out) := by
  constructor
  · intro ts s e ts_tz freq inc_s inc_e inc_eq out h hcontra
    unfold format_ts at hcontra
    split at hcontra
    · exact Except.noConfusion hcontra
    split at hcontra
    · exact Except.noConfusion hcontra
    split at hcontra
    · rw [h] at hcontra
      exact Except.noConfusion hcontra
    · cases hlast : (utcData ts ts_tz).getLast? with
      | none =>
        rw [hlast] at hcontra
        exact Except.noConfusion hcontra
      | some lastp =>
        rw [hlast, h] at hcontra
        exact Except.noConfusion hcontra
  · intro ts s e ts_tz freq inc_s inc_e k hk hs he htz hne hnd _
    obtain ⟨sv, hsv⟩ := Option.isSome_iff_exists.mp hs
    obtain ⟨ev, hev⟩ := Option.isSome_iff_exists.mp he
    have hne' : utcData ts ts_tz ≠ [] := by
      simp only [utcData, ne_eq, List.map_eq_nil_iff]
      exact hne
    obtain ⟨lastp, hlast⟩ :=
      Option.isSome_iff_exists.mp (List.getLast?_isSome.mpr hne')
    unfold format_ts
    rw [hsv, hev]
    have htz' : (ts.tz.isNone && ts_tz.isNone) = false := by
      rcases htz with h | h <;>
        obtain ⟨x, hx⟩ := Option.isSome_iff_exists.mp h <;> simp [hx]
    simp only [Option.isNone_some, Bool.or_self, Bool.false_eq_true,
      if_false, htz']
    rw [hlast, hk]
    exact ⟨_, by simp only [reindexGrid]; rw [if_pos hnd]⟩

/-- C3 witness: concrete instances discharging both halves of the amended
theorem — an unparsable frequency never yields a series, and a reversed
window with a parsable frequency yields one. -/
theorem c3_amended_witness :
    parseFreq "junk" = none ∧
    (format_ts ⟨[(600, some 1)], some 0⟩ ⟨0, some 0⟩ ⟨60, some 0⟩ none
      "junk" true false false ≠ .ok []) ∧
    ((610 : Int) < 630 ∧
     ∃ out, format_ts ⟨[(600, some 1)], some 0⟩ ⟨630, some 0⟩ ⟨610, some 0⟩
       none "1h" true false false = .ok out) :=
  ⟨by decide,
   c3_amended.1 ⟨[(600, some 1)], some 0⟩ ⟨0, some 0⟩ ⟨60, some 0⟩ none
     "junk" true false false [] (by decide),
   by decide,
   c3_amended.2 ⟨[(600, some 1)], some 0⟩ ⟨630, some 0⟩ ⟨610, some 0⟩ none
     "1h" true false 60 (by decide) (by decide) (by decide)
     (Or.inl (by decide)) (by decide) (by decide) (by decide)⟩

/-! ## Claim C10 -/

/-- C10: with the default `include_equal_end = False` and an empty input
index, `format_ts` evaluates `ts.index[-1]` before any grid construction
and fails with the out-of-bounds IndexError, even though start, end and
frequency are all valid. -/
theorem c10_empty_index (ts : PySeries) (s e : PyTimestamp)
    (ts_tz : Option Int) (freq : String) (include_start include_end : Bool)
    (hd : ts.data = []) (hs : s.off.isSome) (he : e.off.isSome)
    (htz : ts.tz.isSome ∨ ts_tz.isSome) :
    format_ts ts s e ts_tz freq include_start include_end false =
      .error .indexErr := by
  obtain ⟨sv, hsv⟩ := Option.isSome_iff_exists.mp hs
  obtain ⟨ev, hev⟩ := Option.isSome_iff_exists.mp he
  have htz' : (ts.tz.isNone && ts_tz.isNone) = false := by
    rcases htz with h | h <;>
      obtain ⟨x, hx⟩ := Option.isSome_iff_exists.mp h <;> simp [hx]
  have hutc : utcData ts ts_tz = [] := by
    simp [utcData, hd]
  unfold format_ts
  rw [hsv, hev]
  simp only [Option.isNone_some, Bool.or_self, Bool.false_eq_true,
    if_false, htz', hutc]
  rfl

/-- C10 witness: the failure at a concrete empty series with valid
tz-aware bounds and a valid frequency. -/
theorem c10_empty_index_witness :
    (⟨[], some 0⟩ : PySeries).data = [] ∧
    format_ts ⟨[], some 0⟩ ⟨0, some 0⟩ ⟨60, some 0⟩ none "1h" true false
      false = .error .indexErr :=
  ⟨rfl,
   c10_empty_index ⟨[], some 0⟩ ⟨0, some 0⟩ ⟨60, some 0⟩ none "1h" true
     false rfl (by decide) (by decide) (Or.inl (by decide))⟩

/-! ## Claim C4 -/

/-- C4: for a token stored at time `T` with expiry `T + 3600` seconds,
every `get_access_token(force_refresh=False)` call strictly before
`T + 3590` returns the stored token with zero token-endpoint requests
(the 10-second safety margin); a call at or after `T + 3590` performs
exactly one token-endpoint request; and on a successful exchange whose
body omits `expires_in`, the stored expiry is `now + 3600`. -/
theorem c4_token_reuse (tok : String) (T t : Int) (cf : Bool)
    (ep : TokenHTTP) (w : Bool) :
    (t < T + 3590 →
      get_access_token ⟨some tok, T + 3600, cf⟩ t false ep w =
        (.ok tok, ⟨some tok, T + 3600, cf⟩, 0)) ∧
    (T + 3590 ≤ t →
      (get_access_token ⟨some tok, T + 3600, cf⟩ t false ep w).2.2 = 1) ∧
    (∀ b : TokenResponse, T + 3590 ≤ t → ep = .resp 200 (some b) →
      pyTruthyS b.access_token = true → pyTruthyS b.token_type = true →
      b.expires_in = none →
      (get_access_token ⟨some tok, T + 3600, cf⟩ t false ep
        w).2.1.tokenExpiry = t + 3600) := by
  refine ⟨?_, ?_, ?_⟩
  · intro hlt
    have hv : isTokenValid ⟨some tok, T + 3600, cf⟩ t = true := by
      simp only [isTokenValid, Option.isSome_some, Bool.true_and,
        decide_eq_true_eq]
      omega
    simp [get_access_token, hv]
  · intro hge
    have hv : isTokenValid ⟨some tok, T + 3600, cf⟩ t = false := by
      simp only [isTokenValid, Option.isSome_some, Bool.true_and,
        decide_eq_false_iff_not]
      omega
    simp only [get_access_token, hv, Bool.not_false, Bool.and_false,
      Bool.false_eq_true, if_false]
    cases ep with
    | netErr => rfl
    | resp status body =>
      by_cases hst : status = 200
      · subst hst
        simp only [ne_eq, not_true_eq_false, if_false, reduceIte]
        cases body with
        | none => rfl
        | some b =>
          by_cases hb : (!pyTruthyS b.access_token ||
              !pyTruthyS b.token_type) = true
          · simp [hb]
          · simp only [hb, Bool.false_eq_true, if_false]
            by_cases hw : (cf && !w) = true <;> simp [hw]
      · simp [hst]
  · intro b hge hep hta htt hei
    subst hep
    have hv : isTokenValid ⟨some tok, T + 3600, cf⟩ t = false := by
      simp only [isTokenValid, Option.isSome_some, Bool.true_and,
        decide_eq_false_iff_not]
      omega
    simp only [get_access_token, hv, Bool.not_false, Bool.and_false,
      Bool.false_eq_true, if_false, hta, htt, Bool.not_true, Bool.or_self,
      reduceIte, ne_eq, not_true_eq_false]
    have hlife : tokenLifetime b = 3600 := by
      simp [tokenLifetime, hei]
    by_cases hw : (cf && !w) = true <;> simp [hw, hlife]

/-- C4 witness: concrete instances for all three conjuncts — reuse at
`t = T + 100`, a forced network fetch at `t = T + 3590`, and the default
3600-second lifetime when `expires_in` is absent. -/
theorem c4_token_reuse_witness :
    ((100 : Int) < 0 + 3590 ∧
      get_access_token ⟨some "tok", 0 + 3600, false⟩ 100 false .netErr true =
        (.ok "tok", ⟨some "tok", 0 + 3600, false⟩, 0)) ∧
    ((0 : Int) + 3590 ≤ 3590 ∧
      (get_access_token ⟨some "tok", 0 + 3600, false⟩ 3590 false .netErr
        true).2.2 = 1) ∧
    ((0 : Int) + 3590 ≤ 3590 ∧
      (get_access_token ⟨some "tok", 0 + 3600, false⟩ 3590 false
        (.resp 200 (some ⟨some "fresh", some "Bearer", none⟩))
        true).2.1.tokenExpiry = 3590 + 3600) :=
  ⟨⟨by decide,
    (c4_token_reuse "tok" 0 100 false .netErr true).1 (by decide)⟩,
   ⟨by decide,
    (c4_token_reuse "tok" 0 3590 false .netErr true).2.1 (by decide)⟩,
   ⟨by decide,
    (c4_token_reuse "tok" 0 3590 false
        (.resp 200 (some ⟨some "fresh", some "Bearer", none⟩)) true).2.2
      ⟨some "fresh", some "Bearer", none⟩ (by decide) rfl (by decide)
      (by decide) rfl⟩⟩

/-! ## Claim C5 -/

/-- C5 counterexample: a successful token exchange followed by a failing
cache write makes `get_access_token` raise the write error to the caller
(`_save_token_to_file` has no try/except), instead of returning the fresh
token as the claim states. -/
theorem c5_counterexample :
    get_access_token ⟨none, 0, true⟩ 1000 false
      (.resp 200 (some ⟨some "fresh", some "Bearer", some 3600⟩)) false =
    (.error .saveError, ⟨some "fresh", 4600, true⟩, 1) := by decide

/-- C5 amended: when the exchange succeeds but the cache write fails, the
`OSError` from `_save_token_to_file` propagates to the caller of
`get_access_token`; the in-memory token state nevertheless already holds
the freshly fetched token and its expiry, because the state mutation
precedes the write. -/
theorem c5_amended (st : TokenState) (now : Int) (force : Bool)
    (b : TokenResponse) (ep : TokenHTTP)
    (hcf : st.hasCacheFile = true)
    (hforce : force = true ∨ isTokenValid st now = false)
    (hep : ep = .resp 200 (some b))
    (hta : pyTruthyS b.access_token = true)
    (htt : pyTruthyS b.token_type = true) :
    get_access_token st now force ep false =
      (.error .saveError,
       { st with accessToken := b.access_token,
                 tokenExpiry := now + tokenLifetime b }, 1) := by
  subst hep
  have hguard : (!force && isTokenValid st now) = false := by
    rcases hforce with h | h <;> simp [h]
  simp only [get_access_token, hguard, Bool.false_eq_true, if_false,
    ne_eq, not_true_eq_false, reduceIte, hta, htt, Bool.not_true,
    Bool.or_self, hcf, Bool.not_false, Bool.and_self]

/-- C5 witness: the amended behaviour at the counterexample's input. -/
theorem c5_amended_witness :
    (⟨none, 0, true⟩ : TokenState).hasCacheFile = true ∧
    get_access_token ⟨none, 0, true⟩ 1000 false
      (.resp 200 (some ⟨some "fresh", some "Bearer", some 3600⟩)) false =
    (.error .saveError, ⟨some "fresh", 1000 + tokenLifetime
      ⟨some "fresh", some "Bearer", some 3600⟩, true⟩, 1) :=
  ⟨rfl,
   c5_amended ⟨none, 0, true⟩ 1000 false
     ⟨some "fresh", some "Bearer", some 3600⟩
     (.resp 200 (some ⟨some "fresh", some "Bearer", some 3600⟩)) rfl
     (Or.inr (by decide)) rfl (by decide) (by decide)⟩

/-! ## Claim C6 -/

/-- C6: the claim (and the source's own comment "token refresh failed;
propagate original error") says a failed forced refresh returns the
original 401 response without re-sending.  In fact a failed refresh leaves
the old token in `self._access_token`, which is truthy after the initial
`get_access_token()` succeeded, so `request` re-sends with the stale token
and returns the retry's response: here the first response is `⟨401, 1⟩`,
the refresh fails with endpoint status 500, and the caller receives the
*second* response `⟨401, 2⟩` after two upstream calls. -/
theorem c6_refresh_failure_resends :
    request ⟨some "tok0", 99999, false⟩ 0 .netErr (.resp 500 none) true
      (some ⟨401, 1⟩) (some ⟨401, 2⟩) true =
      .ok (⟨401, 2⟩, ⟨some "tok0", 99999, false⟩, 1, 2) ∧
    (⟨401, 2⟩ : HTTPResp) ≠ ⟨401, 1⟩ :=
  ⟨by decide, by decide⟩

/-! ## Claim C8 -/

/-- C8: `get_averaged` can never produce the weighted aggregate the claim
describes — for every client with at least one configured city it raises
`AttributeError` at the `self.cities` lookup (the constructor only assigns
`cities_cfg`), regardless of what the per-city fetches return. -/
theorem c8_attribute_error (c : OpenMeteoClientM)
    (fetch : String → ℚ → ℚ → List (Int × Option ℚ))
    (hne : c.cities_cfg ≠ []) :
    get_averaged c fetch = .error (.attributeError "cities") := by
  unfold get_averaged
  cases hcfg : c.cities_cfg with
  | nil => exact absurd hcfg hne
  | cons c0 rest => simp [hcfg]

/-- C8 witness: the failure at a one-city configuration whose fetch does
return data. -/
theorem c8_attribute_error_witness :
    ((⟨[("paris", ⟨49, 2, 1⟩)], "Europe", "u"⟩ :
        OpenMeteoClientM).cities_cfg ≠ []) ∧
    get_averaged ⟨[("paris", ⟨49, 2, 1⟩)], "Europe", "u"⟩
      (fun _ _ _ => [(0, some 10)]) = .error (.attributeError "cities") :=
  ⟨by decide,
   c8_attribute_error ⟨[("paris", ⟨49, 2, 1⟩)], "Europe", "u"⟩
     (fun _ _ _ => [(0, some 10)]) (by decide)⟩

/-! ## Claim C9 -/

/-- A successful `mapMExc` maps a projection of the outputs back to a
projection of the inputs. -/
theorem mapMExc_ok_map {α β γ ε : Type} (f : α → Except ε β) (g : α → γ)
    (g' : β → γ) (hfg : ∀ a b, f a = .ok b → g' b = g a) :
    ∀ (l : List α) (m : List β), mapMExc f l = .ok m → m.map g' = l.map g := by
  intro l
  induction l with
  | nil =>
    intro m hm
    cases hm
    rfl
  | cons a as ih =>
    intro m hm
    unfold mapMExc at hm
    cases hfa : f a with
    | error er =>
      rw [hfa] at hm
      exact Except.noConfusion hm
    | ok b =>
      rw [hfa] at hm
      cases hrest : mapMExc f as with
      | error er =>
        rw [hrest] at hm
        exact Except.noConfusion hm
      | ok ms =>
        rw [hrest] at hm
        have hmm : b :: ms = m := by
          injection hm
        rw [← hmm, List.map_cons, List.map_cons, hfg a b hfa, ih ms hrest]

/-- Every output of a successful `mapMExc` comes from some input. -/
theorem mapMExc_ok_mem {α β ε : Type} (f : α → Except ε β) :
    ∀ (l : List α) (m : List β), mapMExc f l = .ok m →
      ∀ b ∈ m, ∃ a ∈ l, f a = .ok b := by
  intro l
  induction l with
  | nil =>
    intro m hm b hb
    cases hm
    exact absurd hb (List.not_mem_nil b)
  | cons a as ih =>
    intro m hm b hb
    unfold mapMExc at hm
    cases hfa : f a with
    | error er =>
      rw [hfa] at hm
      exact Except.noConfusion hm
    | ok b0 =>
      rw [hfa] at hm
      cases hrest : mapMExc f as with
      | error er =>
        rw [hrest] at hm
        exact Except.noConfusion hm
      | ok ms =>
        rw [hrest] at hm
        have hmm : b0 :: ms = m := by
          injection hm
        rw [← hmm] at hb
        cases hb with
        | head => exact ⟨a, List.mem_cons_self a as, hfa⟩
        | tail _ htl =>
          obtain ⟨a', ha', hfa'⟩ := ih ms hrest b htl
          exact ⟨a', List.mem_cons_of_mem a ha', hfa'⟩

/-- C9: whenever the keyed extractor succeeds, it returns exactly one
entry per forecast variant present (with a parsable tag) in the upstream
response, in response order and keyed by `PrevisionType`; each entry is
that block's values normalized independently; and the requested variant
list has no influence on the result, so a requested variant absent from
the response simply yields no entry for its key rather than an error. -/
theorem c9_keyed_per_variant (types : List PrevisionType)
    (resp : List (String × List (Int × Option ℚ))) (s e : PyTimestamp)
    (m : List (PrevisionType × List (Int × Option ℚ)))
    (hm : get_short_term_consumptions types resp s e = .ok m) :
    m.map Prod.fst =
      resp.filterMap (fun b => PrevisionType.fromString b.1) ∧
    (∀ p : PrevisionType, (∃ ser, (p, ser) ∈ m) ↔
      ∃ b ∈ resp, PrevisionType.fromString b.1 = some p) ∧
    (∀ p ser, (p, ser) ∈ m → ∃ b ∈ resp,
      PrevisionType.fromString b.1 = some p ∧
      format_ts ⟨b.2, some 0⟩ s e none "15min" true true false = .ok ser) ∧
    (∀ types2, get_short_term_consumptions types2 resp s e = .ok m) := by
  have hfst : m.map Prod.fst =
      (resp.filterMap (fun b =>
        (PrevisionType.fromString b.1).map (fun p => (p, b.2)))).map
        Prod.fst := by
    refine mapMExc_ok_map _ Prod.fst Prod.fst ?_ _ _ hm
    intro a b hab
    cases hft : format_ts ⟨a.2, some 0⟩ s e none "15min" true true false with
    | error er =>
      rw [hft] at hab
      exact Except.noConfusion hab
    | ok x =>
      rw [hft] at hab
      have : (a.1, x) = b := by
        injection hab
      rw [← this]
  have hkeys : m.map Prod.fst =
      resp.filterMap (fun b => PrevisionType.fromString b.1) := by
    rw [hfst, List.map_filterMap]
    refine filterMap_congr_mem (fun b _ => ?_)
    cases PrevisionType.fromString b.1 <;> rfl
  refine ⟨hkeys, ?_, ?_, ?_⟩
  · intro p
    constructor
    · rintro ⟨ser, hser⟩
      have hp : p ∈ m.map Prod.fst :=
        List.mem_map.mpr ⟨(p, ser), hser, rfl⟩
      rw [hkeys] at hp
      exact List.mem_filterMap.mp hp
    · rintro ⟨b, hb, heq⟩
      have hp : p ∈ m.map Prod.fst := by
        rw [hkeys]
        exact List.mem_filterMap.mpr ⟨b, hb, heq⟩
      obtain ⟨x, hx, hx1⟩ := List.mem_map.mp hp
      refine ⟨x.2, ?_⟩
      rw [← hx1]
      simpa using hx
  · intro p ser hmem
    obtain ⟨a, ha, hfa⟩ :=
      mapMExc_ok_mem _ _ _ hm (p, ser) hmem
    obtain ⟨b, hb, hbeq⟩ := List.mem_filterMap.mp ha
    cases hfs : PrevisionType.fromString b.1 with
    | none =>
      rw [hfs] at hbeq
      exact Option.noConfusion hbeq
    | some q =>
      rw [hfs] at hbeq
      have hba : (q, b.2) = a := by
        injection hbeq
      rw [← hba] at hfa
      cases hft : format_ts ⟨b.2, some 0⟩ s e none "15min" true true
        false with
      | error er =>
        rw [show ((q, b.2) : PrevisionType ×
            List (Int × Option ℚ)).2 = b.2 from rfl, hft] at hfa
        exact Except.noConfusion hfa
      | ok x =>
        rw [show ((q, b.2) : PrevisionType ×
            List (Int × Option ℚ)).2 = b.2 from rfl, hft] at hfa
        have hqx : (q, x) = (p, ser) := by
          injection hfa
        have hq : q = p := congrArg Prod.fst hqx
        have hx : x = ser := congrArg Prod.snd hqx
        exact ⟨b, hb, by rw [hfs, hq], by rw [hft, hx]⟩
  · intro types2
    exact hm

/-- The concrete upstream response used by the C9 witness: one parsable
variant block and one unknown tag. -/
def c9ExResp : List (String × List (Int × Option ℚ)) :=
  [("REALISED", [(0, some 1)]), ("X", [(0, some 2)])]

/-- The keyed result the extractor produces from `c9ExResp`. -/
def c9ExMap : List (PrevisionType × List (Int × Option ℚ)) :=
  [(.REALISED, [(0, some 1), (15, none), (30, none), (45, none),
    (60, none)])]

/-- C9 witness: requesting the (absent) `ID` variant over `c9ExResp`
succeeds, yields exactly the `REALISED` entry, and the result does not
depend on the requested variants. -/
theorem c9_keyed_per_variant_witness :
    get_short_term_consumptions [PrevisionType.ID] c9ExResp (utcTs 0)
      (utcTs 60) = .ok c9ExMap ∧
    (c9ExMap.map Prod.fst =
      c9ExResp.filterMap (fun b => PrevisionType.fromString b.1) ∧
    (∀ p : PrevisionType, (∃ ser, (p, ser) ∈ c9ExMap) ↔
      ∃ b ∈ c9ExResp, PrevisionType.fromString b.1 = some p) ∧
    (∀ p ser, (p, ser) ∈ c9ExMap → ∃ b ∈ c9ExResp,
      PrevisionType.fromString b.1 = some p ∧
      format_ts ⟨b.2, some 0⟩ (utcTs 0) (utcTs 60) none "15min" true true
        false = .ok ser) ∧
    (∀ types2, get_short_term_consumptions types2 c9ExResp (utcTs 0)
      (utcTs 60) = .ok c9ExMap)) :=
  ⟨by decide,
   c9_keyed_per_variant [PrevisionType.ID] c9ExResp (utcTs 0) (utcTs 60)
     c9ExMap (by decide)⟩

/-! ## Claim C7: computation lemmas for the load-stitching pipeline -/

@[simp]
theorem utcTs_off (x : Int) : (utcTs x).off = some 0 := rfl

@[simp]
theorem utcTs_wall (x : Int) : (utcTs x).wall = x := rfl

@[simp]
theorem utcTs_instant (x : Int) : (utcTs x).instant = x := by
  simp [utcTs, PyTimestamp.instant]

/-- A series already given in UTC converts to itself. -/
theorem utcData_utc (l : List (Int × Option ℚ)) :
    utcData ⟨l, some 0⟩ none = l := by
  simp [utcData, utcOffset]

/-- On an hour-aligned UTC timestamp both flavours of the start edge are
the timestamp itself. -/
theorem cutStartEdge_aligned (b : Bool) (x : Int) (hx : x % 60 = 0) :
    cutStartEdge b (utcTs x) = x := by
  cases b <;>
    simp [cutStartEdge, hourFloorT, hourCeilT, floorMul, ceilMul, utcTs,
      PyTimestamp.instant, hx, Int.emod_self]

/-- On an hour-aligned UTC timestamp both flavours of the base end edge
are the timestamp itself. -/
theorem cutEndBase_aligned (b : Bool) (x : Int) (hx : x % 60 = 0) :
    cutEndBase b (utcTs x) = x := by
  cases b <;>
    simp [cutEndBase, hourFloorT, hourCeilT, floorMul, ceilMul, utcTs,
      PyTimestamp.instant, hx, Int.emod_self]

/-- The raw series a consistent hourly upstream returns over an aligned
window `[60a, 60a + 60n)` is the mapped range of its `n` hour points. -/
theorem hourlyTruth_eq_map_range (g : Int → ℚ) (a : Int) (m : Nat) :
    hourlyTruth g (60 * a) (60 * a + 60 * ((m + 1 : Nat) : Int)) =
    (List.range (m + 1)).map (fun (i : Nat) =>
      (60 * a + 60 * (i : Int), some (g (60 * a + 60 * (i : Int))))) := by
  unfold hourlyTruth
  have hb : 60 * a + 60 * ((m + 1 : Nat) : Int) - 60 =
      60 * a + 60 * ((m : Nat) : Int) := by
    push_cast
    ring
  rw [hb, gridPts_eq_map_range (60 * a) 60 m (by norm_num), List.map_map]
  rfl

/-- Reduction of `format_ts` on its default (`include_equal_end = False`)
path once the tz checks pass and the last observation and parsed frequency
are known: the call is exactly a `reindexGrid` between the computed
edges. -/
theorem format_ts_reduce (ts : PySeries) (s e : PyTimestamp)
    (ts_tz : Option Int) (freq : String) (inc_s inc_e : Bool)
    (k lst : Int) (v : Option ℚ)
    (hs : s.off.isSome) (he : e.off.isSome)
    (htz : ts.tz.isSome ∨ ts_tz.isSome)
    (hlast : (utcData ts ts_tz).getLast? = some (lst, v))
    (hk : parseFreq freq = some k) :
    format_ts ts s e ts_tz freq inc_s inc_e false =
    reindexGrid (utcData ts ts_tz) (cutStartEdge inc_s s)
      (if lst + k = e.instant then cutEndBase inc_e e - k
       else cutEndBase inc_e e) k := by
  obtain ⟨sv, hsv⟩ := Option.isSome_iff_exists.mp hs
  obtain ⟨ev, hev⟩ := Option.isSome_iff_exists.mp he
  have htz' : (ts.tz.isNone && ts_tz.isNone) = false := by
    rcases htz with h | h <;>
      obtain ⟨x, hx⟩ := Option.isSome_iff_exists.mp h <;> simp [hx]
  unfold format_ts
  rw [hsv, hev]
  simp only [Option.isNone_some, Bool.or_self, Bool.false_eq_true,
    if_false, htz']
  rw [hlast, hk]

/-- Reindexing a grid of `N + 1` points onto range-shaped data of `n`
points with the same origin and step keeps the stored values on the first
`n` slots and fills the rest with the missing marker. -/
theorem reindexGrid_range (a k : Int) (hk : 0 < k) (w : Nat → Option ℚ)
    (n N : Nat) :
    reindexGrid
      ((List.range n).map (fun (i : Nat) => (a + k * (i : Int), w i)))
      a (a + k * (N : Int)) k =
    .ok ((List.range (N + 1)).map (fun (i : Nat) =>
      (a + k * (i : Int), if i < n then w i else none))) := by
  unfold reindexGrid
  rw [if_pos (nodup_map_range_keys a k hk w n)]
  rw [gridPts_eq_map_range a k N hk, List.map_map]
  congr 1
  refine map_congr_mem (fun i _ => ?_)
  simp only [Function.comp_apply]
  by_cases hin : i < n
  · rw [lookupVal_map_range a k hk w n i hin, if_pos hin]
  · rw [if_neg hin, lookupVal_not_mem]
    intro hmem
    rw [List.map_map] at hmem
    obtain ⟨j, hj, hji⟩ := List.mem_map.mp hmem
    have : k * (j : Int) = k * (i : Int) := by
      simpa using hji
    have hji' : (j : Int) = (i : Int) := mul_left_cancel₀ (ne_of_gt hk) this
    have : j = i := by exact_mod_cast hji'
    subst this
    exact hin (List.mem_range.mp hj)

/-- Normalizing the consistent hourly upstream over an aligned window at
frequency `"1h"` (the pre-threshold branch) yields exactly the raw hourly
values: the `include_equal_end` adjustment trims the final grid slot
because the last raw point is one hour before `end`. -/
theorem formatHourlyTruth (g : Int → ℚ) (a : Int) (n : Nat) (hn : 0 < n) :
    format_ts ⟨hourlyTruth g (60 * a) (60 * a + 60 * (n : Int)), some 0⟩
      (utcTs (60 * a)) (utcTs (60 * a + 60 * (n : Int))) none "1h"
      false false false =
    .ok ((List.range n).map (fun (i : Nat) =>
      (60 * a + 60 * (i : Int), some (g (60 * a + 60 * (i : Int)))))) := by
  obtain ⟨m, rfl⟩ : ∃ m, n = m + 1 := ⟨n - 1, by omega⟩
  have hutc : utcData
      ⟨hourlyTruth g (60 * a) (60 * a + 60 * ((m + 1 : Nat) : Int)),
        some 0⟩ none =
      (List.range (m + 1)).map (fun (i : Nat) =>
        (60 * a + 60 * (i : Int), some (g (60 * a + 60 * (i : Int))))) := by
    rw [utcData_utc]
    exact hourlyTruth_eq_map_range g a m
  have hlast : (utcData
      ⟨hourlyTruth g (60 * a) (60 * a + 60 * ((m + 1 : Nat) : Int)),
        some 0⟩ none).getLast? =
      some (60 * a + 60 * ((m : Nat) : Int),
        some (g (60 * a + 60 * ((m : Nat) : Int)))) := by
    rw [hutc]
    exact getLast?_map_range _ m
  rw [format_ts_reduce
    ⟨hourlyTruth g (60 * a) (60 * a + 60 * ((m + 1 : Nat) : Int)), some 0⟩
    (utcTs (60 * a)) (utcTs (60 * a + 60 * ((m + 1 : Nat) : Int))) none
    "1h" false false 60 (60 * a + 60 * ((m : Nat) : Int))
    (some (g (60 * a + 60 * ((m : Nat) : Int)))) rfl rfl (Or.inl rfl)
    hlast (by decide), hutc]
  rw [cutStartEdge_aligned false (60 * a) (by omega)]
  have hcond : 60 * a + 60 * ((m : Nat) : Int) + 60 =
      (utcTs (60 * a + 60 * ((m + 1 : Nat) : Int))).instant := by
    simp only [utcTs_instant]
    push_cast
    ring
  rw [if_pos hcond,
    cutEndBase_aligned false (60 * a + 60 * ((m + 1 : Nat) : Int))
      (by omega)]
  have hEE : 60 * a + 60 * ((m + 1 : Nat) : Int) - 60 =
      60 * a + 60 * ((m : Nat) : Int) := by
    push_cast
    ring
  rw [hEE, reindexGrid_range (60 * a) 60 (by norm_num)
    (fun (i : Nat) => some (g (60 * a + 60 * (i : Int)))) (m + 1) m]
  congr 1
  refine map_congr_mem (fun i hi => ?_)
  rw [if_pos (List.mem_range.mp hi)]


/-- Sanity: the embedding reproduces test_utils.py::test_format_ts_basic
(minutes relative to 2025-11-04 00:00 local; Paris offset +60). -/
theorem sanity_format_ts_pytest_basic :
    format_ts ⟨[(600, some 1), (660, some 2), (720, some 3)], some 60⟩
      ⟨630, some 60⟩ ⟨730, some 60⟩ none "1h" true false false =
    .ok [(540, some 1), (600, some 2), (660, some 3)] := by decide

/-- Sanity: an unparsable frequency raises on the `pd.Timedelta` line. -/
theorem sanity_format_ts_invalid_freq :
    format_ts ⟨[(600, some 1)], some 0⟩ ⟨0, some 0⟩ ⟨60, some 0⟩ none
      "bad" true false false = .error .timedeltaParse := by decide

/-- Normalizing the consistent *hourly* upstream over an aligned window at
frequency `"15min"` (what the post-split fetch does when fed pre-threshold
hourly data): the 15-minute grid runs from the window start up to and
including the window end (the adjustment does not fire since the last raw
point is one hour, not 15 minutes, before `end`), with values only on the
hour-aligned slots strictly inside the window. -/
theorem format15HourlyTruth (g : Int → ℚ) (c : Int) (q : Nat) (hq : 0 < q) :
    format_ts ⟨hourlyTruth g (60 * c) (60 * c + 60 * (q : Int)), some 0⟩
      (utcTs (60 * c)) (utcTs (60 * c + 60 * (q : Int))) none "15min"
      false false false =
    .ok ((List.range (4 * q + 1)).map (fun (i : Nat) =>
      (60 * c + 15 * (i : Int),
       if i % 4 = 0 ∧ i < 4 * q then some (g (60 * c + 15 * (i : Int)))
       else none))) := by
  obtain ⟨m, rfl⟩ : ∃ m, q = m + 1 := ⟨q - 1, by omega⟩
  have hutc : utcData
      ⟨hourlyTruth g (60 * c) (60 * c + 60 * ((m + 1 : Nat) : Int)),
        some 0⟩ none =
      (List.range (m + 1)).map (fun (i : Nat) =>
        (60 * c + 60 * (i : Int), some (g (60 * c + 60 * (i : Int))))) := by
    rw [utcData_utc]
    exact hourlyTruth_eq_map_range g c m
  have hlast : (utcData
      ⟨hourlyTruth g (60 * c) (60 * c + 60 * ((m + 1 : Nat) : Int)),
        some 0⟩ none).getLast? =
      some (60 * c + 60 * ((m : Nat) : Int),
        some (g (60 * c + 60 * ((m : Nat) : Int)))) := by
    rw [hutc]
    exact getLast?_map_range _ m
  rw [format_ts_reduce
    ⟨hourlyTruth g (60 * c) (60 * c + 60 * ((m + 1 : Nat) : Int)), some 0⟩
    (utcTs (60 * c)) (utcTs (60 * c + 60 * ((m + 1 : Nat) : Int))) none
    "15min" false false 15 (60 * c + 60 * ((m : Nat) : Int))
    (some (g (60 * c + 60 * ((m : Nat) : Int)))) rfl rfl (Or.inl rfl)
    hlast (by decide), hutc]
  rw [cutStartEdge_aligned false (60 * c) (by omega)]
  have hne15 : ¬ (60 * c + 60 * ((m : Nat) : Int) + 15 =
      (utcTs (60 * c + 60 * ((m + 1 : Nat) : Int))).instant) := by
    simp only [utcTs_instant]
    push_cast
    omega
  rw [if_neg hne15,
    cutEndBase_aligned false (60 * c + 60 * ((m + 1 : Nat) : Int))
      (by omega)]
  have hE : 60 * c + 60 * ((m + 1 : Nat) : Int) =
      60 * c + 15 * ((4 * (m + 1) : Nat) : Int) := by
    push_cast
    ring
  rw [hE]
  unfold reindexGrid
  rw [if_pos (nodup_map_range_keys (60 * c) 60 (by norm_num) _ (m + 1))]
  rw [gridPts_eq_map_range (60 * c) 15 (4 * (m + 1)) (by norm_num),
    List.map_map]
  congr 1
  refine map_congr_mem (fun i hi => ?_)
  simp only [Function.comp_apply]
  refine congrArg₂ Prod.mk rfl ?_
  by_cases hc4 : i % 4 = 0 ∧ i < 4 * (m + 1)
  · rw [if_pos hc4]
    have hkey : 60 * c + 15 * (i : Int) =
        60 * c + 60 * ((i / 4 : Nat) : Int) := by
      omega
    rw [hkey, lookupVal_map_range (60 * c) 60 (by norm_num) _ (m + 1)
      (i / 4) (by omega), ← hkey]
  · rw [if_neg hc4, lookupVal_not_mem]
    intro hmem
    rw [List.map_map] at hmem
    obtain ⟨j, hj, hji⟩ := List.mem_map.mp hmem
    have hj' := List.mem_range.mp hj
    have hji2 : 60 * c + 60 * (j : Int) = 60 * c + 15 * (i : Int) := by
      simpa using hji
    omega

/-- Unfolding `resampleHourMean` once the first and last rows are known:
one bucket per hour from the floor of the first to the floor of the last
index, each holding the skip-missing mean of its values. -/
theorem resampleHourMean_eq (l : List (Int × Option ℚ)) (fk lk : Int)
    (fv lv : Option ℚ) (hh : l.head? = some (fk, fv))
    (hl : l.getLast? = some (lk, lv)) :
    resampleHourMean l =
    (gridPts (floorMul 60 fk) (floorMul 60 lk) 60).map (fun h =>
      (h,
       if (l.filterMap (fun p =>
            if floorMul 60 p.1 = h then p.2 else none)).isEmpty then none
       else some ((l.filterMap (fun p =>
          if floorMul 60 p.1 = h then p.2 else none)).sum /
        ((l.filterMap (fun p =>
          if floorMul 60 p.1 = h then p.2 else none)).length : ℚ)))) := by
  unfold resampleHourMean
  rw [hh, hl]

/-- Downsampling the 15-minute normalization of hourly data back to hourly
means recovers the hourly values on every full hour of the window and adds
one trailing missing bucket at the window end (whose only 15-minute slot
is missing). -/
theorem resampleF15 (g : Int → ℚ) (c : Int) (q : Nat) (hq : 0 < q) :
    resampleHourMean ((List.range (4 * q + 1)).map (fun (i : Nat) =>
      (60 * c + 15 * (i : Int),
       if i % 4 = 0 ∧ i < 4 * q then some (g (60 * c + 15 * (i : Int)))
       else none))) =
    (List.range (q + 1)).map (fun (j : Nat) =>
      (60 * c + 60 * (j : Int),
       if j = q then none else some (g (60 * c + 60 * (j : Int))))) := by
  have hhead := head?_map_range (fun (i : Nat) =>
    ((60 * c + 15 * (i : Int) : Int),
     if i % 4 = 0 ∧ i < 4 * q then some (g (60 * c + 15 * (i : Int)))
     else none)) (4 * q)
  have hlastF := getLast?_map_range (fun (i : Nat) =>
    ((60 * c + 15 * (i : Int) : Int),
     if i % 4 = 0 ∧ i < 4 * q then some (g (60 * c + 15 * (i : Int)))
     else none)) (4 * q)
  rw [resampleHourMean_eq _ (60 * c + 15 * ((0 : Nat) : Int))
    (60 * c + 15 * ((4 * q : Nat) : Int)) _ _ hhead hlastF]
  have hf0 : floorMul 60 (60 * c + 15 * ((0 : Nat) : Int)) = 60 * c := by
    unfold floorMul
    push_cast
    omega
  have hfN : floorMul 60 (60 * c + 15 * ((4 * q : Nat) : Int)) =
      60 * c + 60 * (q : Int) := by
    unfold floorMul
    push_cast
    omega
  rw [hf0, hfN, gridPts_eq_map_range (60 * c) 60 q (by norm_num),
    List.map_map]
  refine map_congr_mem (fun j hj => ?_)
  simp only [Function.comp_apply]
  refine congrArg₂ Prod.mk rfl ?_
  have hpres : (((List.range (4 * q + 1)).map (fun (i : Nat) =>
      (60 * c + 15 * (i : Int),
       if i % 4 = 0 ∧ i < 4 * q then some (g (60 * c + 15 * (i : Int)))
       else none))).filterMap (fun p =>
        if floorMul 60 p.1 = 60 * c + 60 * (j : Int) then p.2 else none)) =
      if j = q then [] else [g (60 * c + 60 * (j : Int))] := by
    rw [List.filterMap_map]
    by_cases hjq : j = q
    · subst hjq
      rw [if_pos rfl]
      rw [List.filterMap_eq_nil_iff.mpr]
      intro i hi
      simp only [Function.comp_apply]
      by_cases hfl : floorMul 60 (60 * c + 15 * (i : Int)) =
          60 * c + 60 * (j : Int)
      · rw [if_pos hfl]
        have hin : ¬ (i % 4 = 0 ∧ i < 4 * j) := by
          unfold floorMul at hfl
          have hi' := List.mem_range.mp hi
          omega
        rw [if_neg hin]
      · rw [if_neg hfl]
    · rw [if_neg hjq]
      have hjq' : j < q := by
        have := List.mem_range.mp hj
        omega
      have hcongr : (List.range (4 * q + 1)).filterMap
          ((fun p : Int × Option ℚ =>
            if floorMul 60 p.1 = 60 * c + 60 * (j : Int) then p.2
            else none) ∘ (fun (i : Nat) =>
              (60 * c + 15 * (i : Int),
               if i % 4 = 0 ∧ i < 4 * q then
                 some (g (60 * c + 15 * (i : Int)))
               else none))) =
          (List.range (4 * q + 1)).filterMap (fun (i : Nat) =>
            if i = 4 * j then some (g (60 * c + 60 * (j : Int)))
            else none) := by
        refine filterMap_congr_mem (fun i hi => ?_)
        simp only [Function.comp_apply]
        by_cases hi4 : i = 4 * j
        · subst hi4
          have hfl : floorMul 60 (60 * c + 15 * ((4 * j : Nat) : Int)) =
              60 * c + 60 * (j : Int) := by
            unfold floorMul
            push_cast
            omega
          rw [if_pos hfl, if_pos ⟨by omega, by omega⟩,
            show 60 * c + 15 * ((4 * j : Nat) : Int) =
              60 * c + 60 * (j : Int) from by push_cast; ring]
          simp
        · by_cases hfl : floorMul 60 (60 * c + 15 * (i : Int)) =
              60 * c + 60 * (j : Int)
          · have hin : ¬ (i % 4 = 0 ∧ i < 4 * q) := by
              unfold floorMul at hfl
              omega
            rw [if_pos hfl, if_neg hin, if_neg hi4]
          · rw [if_neg hfl, if_neg hi4]
      rw [hcongr, filterMap_range_single (4 * q + 1) (4 * j)
        (g (60 * c + 60 * (j : Int))) (by omega)]
  rw [hpres]
  by_cases hjq : j = q
  · subst hjq
    simp
  · rw [if_neg hjq]
    simp [hjq]

/-- Reduction of the spanning/stitching path once both sub-normalizations
are known to succeed. -/
theorem stitchSpanning_reduce (ql : Int → Int → List (Int × Option ℚ))
    (threshold s e : PyTimestamp) (tb taRaw : List (Int × Option ℚ))
    (h1 : format_ts ⟨ql s.instant threshold.instant, some 0⟩ s threshold
      none "1h" false false false = .ok tb)
    (h2 : format_ts ⟨ql threshold.instant e.instant, some 0⟩ threshold e
      none "15min" false false false = .ok taRaw) :
    stitchSpanning ql threshold s e =
    format_ts ⟨dedupKeepLast (tb ++ resampleHourMean taRaw), some 0⟩ s e
      none "1h" false false false := by
  unfold stitchSpanning
  rw [h1, h2]
  rfl

/-- The two normalized segments of an interior split concatenate into one
range-shaped list over the whole window, with a single trailing missing
sample contributed by the post-split resample. -/
theorem stitchCombine (g : Int → ℚ) (a : Int) (p q : Nat) (hq : 0 < q) :
    ((List.range p).map (fun (i : Nat) =>
      (60 * a + 60 * (i : Int), some (g (60 * a + 60 * (i : Int)))))) ++
    ((List.range (q + 1)).map (fun (j : Nat) =>
      (60 * (a + (p : Int)) + 60 * (j : Int),
       if j = q then none
       else some (g (60 * (a + (p : Int)) + 60 * (j : Int)))))) =
    (List.range (p + q + 1)).map (fun (i : Nat) =>
      (60 * a + 60 * (i : Int),
       if i = p + q then none else some (g (60 * a + 60 * (i : Int))))) := by
  have hsplit : p + q + 1 = p + (q + 1) := by omega
  conv_rhs => rw [hsplit, List.range_add, List.map_append, List.map_map]
  congr 1
  · refine map_congr_mem (fun i hi => ?_)
    have hip : i < p := List.mem_range.mp hi
    rw [if_neg (by omega)]
  · refine map_congr_mem (fun j _ => ?_)
    simp only [Function.comp_apply]
    by_cases hjq : j = q
    · subst hjq
      rw [if_pos rfl, if_pos (by omega : p + j = p + j)]
      exact congrArg₂ Prod.mk (by push_cast; ring) rfl
    · rw [if_neg hjq, if_neg (show ¬ (p + j = p + q) by omega)]
      have hkey : 60 * a + 60 * ((p + j : Nat) : Int) =
          60 * (a + (p : Int)) + 60 * (j : Int) := by
        push_cast
        ring
      rw [hkey]

/-- Re-normalizing the combined series over the whole window keeps every
sample (including the trailing missing one, whose presence defeats the
equal-end adjustment) and so returns the clean hourly series plus one
trailing missing sample at the window end. -/
theorem formatCombined (g : Int → ℚ) (a : Int) (N : Nat) :
    format_ts ⟨(List.range (N + 1)).map (fun (i : Nat) =>
        (60 * a + 60 * (i : Int),
         if i = N then none else some (g (60 * a + 60 * (i : Int))))),
      some 0⟩
      (utcTs (60 * a)) (utcTs (60 * a + 60 * (N : Int))) none "1h"
      false false false =
    .ok ((List.range N).map (fun (i : Nat) =>
        (60 * a + 60 * (i : Int), some (g (60 * a + 60 * (i : Int))))) ++
      [(60 * a + 60 * (N : Int), none)]) := by
  have hlast : (utcData ⟨(List.range (N + 1)).map (fun (i : Nat) =>
      (60 * a + 60 * (i : Int),
       if i = N then none else some (g (60 * a + 60 * (i : Int))))),
      some 0⟩ none).getLast? =
      some (60 * a + 60 * ((N : Nat) : Int),
        if N = N then none else some (g (60 * a + 60 * ((N : Nat) : Int)))) := by
    rw [utcData_utc]
    exact getLast?_map_range _ N
  rw [format_ts_reduce
    ⟨(List.range (N + 1)).map (fun (i : Nat) =>
      (60 * a + 60 * (i : Int),
       if i = N then none else some (g (60 * a + 60 * (i : Int))))),
      some 0⟩
    (utcTs (60 * a)) (utcTs (60 * a + 60 * (N : Int))) none "1h" false
    false 60 (60 * a + 60 * ((N : Nat) : Int))
    (if N = N then none else some (g (60 * a + 60 * ((N : Nat) : Int))))
    rfl rfl (Or.inl rfl) hlast (by decide), utcData_utc]
  rw [cutStartEdge_aligned false (60 * a) (by omega)]
  have hne : ¬ (60 * a + 60 * ((N : Nat) : Int) + 60 =
      (utcTs (60 * a + 60 * (N : Int))).instant) := by
    simp only [utcTs_instant]
    omega
  rw [if_neg hne, cutEndBase_aligned false (60 * a + 60 * (N : Int))
    (by omega)]
  rw [reindexGrid_range (60 * a) 60 (by norm_num)
    (fun (i : Nat) =>
      if i = N then none else some (g (60 * a + 60 * (i : Int))))
    (N + 1) N]
  congr 1
  rw [List.range_succ, List.map_append]
  congr 1
  · refine map_congr_mem (fun i hi => ?_)
    have hiN : i < N := List.mem_range.mp hi
    rw [if_pos (by omega), if_neg (by omega)]
  · simp

/-- Stitching a wholly pre-threshold window at an interior hour-aligned
split against a consistent hourly upstream: the result is the direct
hourly normalization of the window followed by one extra trailing missing
sample at the window end. -/
theorem stitchPreThreshold (g : Int → ℚ) (a : Int) (p q : Nat)
    (hp : 0 < p) (hq : 0 < q)
    (ql : Int → Int → List (Int × Option ℚ))
    (hql2 : ql (60 * a) (60 * a + 60 * (p : Int)) =
      hourlyTruth g (60 * a) (60 * a + 60 * (p : Int)))
    (hql3 : ql (60 * a + 60 * (p : Int))
        (60 * a + 60 * ((p + q : Nat) : Int)) =
      hourlyTruth g (60 * a + 60 * (p : Int))
        (60 * a + 60 * ((p + q : Nat) : Int))) :
    stitchSpanning ql (utcTs (60 * a + 60 * (p : Int))) (utcTs (60 * a))
      (utcTs (60 * a + 60 * ((p + q : Nat) : Int))) =
    .ok (((List.range (p + q)).map (fun (i : Nat) =>
        (60 * a + 60 * (i : Int), some (g (60 * a + 60 * (i : Int)))))) ++
      [(60 * a + 60 * ((p + q : Nat) : Int), none)]) := by
  have hc1 : (60 : Int) * a + 60 * (p : Int) = 60 * (a + (p : Int)) := by
    ring
  have hc2 : (60 : Int) * a + 60 * ((p + q : Nat) : Int) =
      60 * (a + (p : Int)) + 60 * (q : Int) := by
    push_cast
    ring
  have h1 : format_ts
      ⟨ql (utcTs (60 * a)).instant
        (utcTs (60 * a + 60 * (p : Int))).instant, some 0⟩
      (utcTs (60 * a)) (utcTs (60 * a + 60 * (p : Int))) none "1h"
      false false false =
      .ok ((List.range p).map (fun (i : Nat) =>
        (60 * a + 60 * (i : Int), some (g (60 * a + 60 * (i : Int)))))) := by
    simp only [utcTs_instant]
    rw [hql2]
    exact formatHourlyTruth g a p hp
  have h2 : format_ts
      ⟨ql (utcTs (60 * a + 60 * (p : Int))).instant
        (utcTs (60 * a + 60 * ((p + q : Nat) : Int))).instant, some 0⟩
      (utcTs (60 * a + 60 * (p : Int)))
      (utcTs (60 * a + 60 * ((p + q : Nat) : Int))) none "15min"
      false false false =
      .ok ((List.range (4 * q + 1)).map (fun (i : Nat) =>
        (60 * (a + (p : Int)) + 15 * (i : Int),
         if i % 4 = 0 ∧ i < 4 * q then
           some (g (60 * (a + (p : Int)) + 15 * (i : Int)))
         else none))) := by
    simp only [utcTs_instant]
    rw [hql3, hc1, hc2]
    exact format15HourlyTruth g (a + (p : Int)) q hq
  rw [stitchSpanning_reduce ql (utcTs (60 * a + 60 * (p : Int)))
    (utcTs (60 * a)) (utcTs (60 * a + 60 * ((p + q : Nat) : Int))) _ _ h1 h2]
  rw [resampleF15 g (a + (p : Int)) q hq]
  rw [stitchCombine g a p q hq]
  rw [dedupKeepLast_self _
    (nodup_map_range_keys (60 * a) 60 (by norm_num) _ (p + q + 1))]
  exact formatCombined g a (p + q)

/-- The consistent constant-valued hourly upstream used by the C7
counterexample and witness. -/
def qlC : Int → Int → List (Int × Option ℚ) :=
  fun s e => hourlyTruth (fun _ => 1) s e

/-- C7 counterexample: a request wholly within the pre-threshold regime
(window `[0, 180)`, threshold instant 240) returns an hourly series on the
direct branch, while the spanning branch's stitching path on the very same
request dies with the empty-fetch IndexError on its post-threshold
sub-fetch — the two are not identical. -/
theorem c7_counterexample :
    get_hourly_load qlC ⟨240, some 0⟩ ⟨0, some 0⟩ ⟨180, some 0⟩ =
      .ok [(0, some 1), (60, some 1), (120, some 1)] ∧
    stitchSpanning qlC ⟨240, some 0⟩ ⟨0, some 0⟩ ⟨180, some 0⟩ =
      .error .indexErr :=
  ⟨by decide, by decide⟩

/-- C7 amended: (i) on a window strictly spanning the threshold the code is
exactly the spec's composition — both sub-fetches normalized independently
(the post segment downsampled to hourly skip-missing means), concatenated,
deduplicated keeping the later value, and re-normalized once over the full
window; (ii) at a duplicated seam timestamp the later-computed
(post-segment) value wins; (iii) a wholly pre-threshold request against a
consistent hourly upstream yields, on the direct branch, the clean hourly
series, while the stitching path run with an interior hour-aligned split
yields that same series *plus one trailing missing sample at the window
end* (and run with the threshold itself as split it fails, per the
counterexample) — identical at every timestamp of the direct result but
not identical outright. -/
theorem c7_amended :
    (∀ (ql : Int → Int → List (Int × Option ℚ)) (T s e : PyTimestamp),
      s.off.isSome → e.off.isSome →
      s.instant < T.instant → T.instant < e.instant →
      get_hourly_load ql T s e = specSpanningStitch ql T s e) ∧
    (∀ (xs ys : List (Int × Option ℚ)) (t : Int),
      (ys.map Prod.fst).Nodup → t ∈ ys.map Prod.fst →
      lookupVal (dedupKeepLast (xs ++ ys)) t = lookupVal ys t) ∧
    (∀ (g : Int → ℚ) (a : Int) (p q : Nat)
      (ql : Int → Int → List (Int × Option ℚ)) (T : PyTimestamp),
      0 < p → 0 < q →
      60 * a + 60 * ((p + q : Nat) : Int) ≤ T.instant →
      ql (60 * a) (60 * a + 60 * ((p + q : Nat) : Int)) =
        hourlyTruth g (60 * a) (60 * a + 60 * ((p + q : Nat) : Int)) →
      ql (60 * a) (60 * a + 60 * (p : Int)) =
        hourlyTruth g (60 * a) (60 * a + 60 * (p : Int)) →
      ql (60 * a + 60 * (p : Int)) (60 * a + 60 * ((p + q : Nat) : Int)) =
        hourlyTruth g (60 * a + 60 * (p : Int))
          (60 * a + 60 * ((p + q : Nat) : Int)) →
      get_hourly_load ql T (utcTs (60 * a))
          (utcTs (60 * a + 60 * ((p + q : Nat) : Int))) =
        .ok ((List.range (p + q)).map (fun (i : Nat) =>
          (60 * a + 60 * (i : Int), some (g (60 * a + 60 * (i : Int)))))) ∧
      stitchSpanning ql (utcTs (60 * a + 60 * (p : Int))) (utcTs (60 * a))
          (utcTs (60 * a + 60 * ((p + q : Nat) : Int))) =
        .ok (((List.range (p + q)).map (fun (i : Nat) =>
          (60 * a + 60 * (i : Int),
           some (g (60 * a + 60 * (i : Int)))))) ++
          [(60 * a + 60 * ((p + q : Nat) : Int), none)])) := by
  refine ⟨?_, ?_, ?_⟩
  · intro ql T s e hs he hsT hTe
    obtain ⟨sv, hsv⟩ := Option.isSome_iff_exists.mp hs
    obtain ⟨ev, hev⟩ := Option.isSome_iff_exists.mp he
    unfold get_hourly_load specSpanningStitch
    rw [hsv, hev]
    simp only [Option.isNone_some, Bool.or_self, Bool.false_eq_true,
      if_false]
    rw [if_neg (not_le.mpr hTe), if_neg (not_le.mpr hsT)]
    rfl
  · intro xs ys t hnd hmem
    exact lookupVal_dedup_append xs ys t hnd hmem
  · intro g a p q ql T hp hq hT hql1 hql2 hql3
    constructor
    · unfold get_hourly_load
      simp only [utcTs_off, Option.isNone_some, Bool.or_self,
        Bool.false_eq_true, if_false, utcTs_instant]
      rw [if_pos hT, hql1]
      exact formatHourlyTruth g a (p + q) (by omega)
    · exact stitchPreThreshold g a p q hp hq ql hql2 hql3

/-- C7 witness: concrete instances for the three conjuncts of the amended
theorem — spanning refinement on window `[0, 240)` with threshold 120,
seam deduplication at timestamp 0, and the pre-threshold identity with the
extra trailing missing sample on window `[0, 120)` split at 60. -/
theorem c7_amended_witness :
    (get_hourly_load qlC ⟨120, some 0⟩ ⟨0, some 0⟩ ⟨240, some 0⟩ =
      specSpanningStitch qlC ⟨120, some 0⟩ ⟨0, some 0⟩ ⟨240, some 0⟩) ∧
    (lookupVal (dedupKeepLast ([((0 : Int), some (1 : ℚ))] ++
        [(0, some 2), (60, none)])) 0 =
      lookupVal [((0 : Int), some (2 : ℚ)), (60, none)] 0) ∧
    (get_hourly_load qlC ⟨240, some 0⟩ (utcTs (60 * 0))
        (utcTs (60 * 0 + 60 * ((1 + 1 : Nat) : Int))) =
      .ok ((List.range (1 + 1)).map (fun (i : Nat) =>
        (60 * 0 + 60 * (i : Int), some ((1 : ℚ))))) ∧
     stitchSpanning qlC (utcTs (60 * 0 + 60 * ((1 : Nat) : Int)))
        (utcTs (60 * 0))
        (utcTs (60 * 0 + 60 * ((1 + 1 : Nat) : Int))) =
      .ok (((List.range (1 + 1)).map (fun (i : Nat) =>
        (60 * 0 + 60 * (i : Int), some ((1 : ℚ))))) ++
        [(60 * 0 + 60 * ((1 + 1 : Nat) : Int), none)])) :=
  ⟨c7_amended.1 qlC ⟨120, some 0⟩ ⟨0, some 0⟩ ⟨240, some 0⟩ (by decide)
     (by decide) (by decide) (by decide),
   c7_amended.2.1 [((0 : Int), some (1 : ℚ))] [(0, some 2), (60, none)] 0
     (by decide) (by decide),
   c7_amended.2.2 (fun _ => (1 : ℚ)) 0 1 1 qlC ⟨240, some 0⟩ (by decide)
     (by decide) (by decide) rfl rfl rfl⟩
